import Mathlib

/-!
Verification of the replay/rendering core of the trading-ui application
(`src/app.py`): the bar-series normalizer, the timer-driven playback state
machine, the viewport/coordinate mapper, the hit-test resolver, the portfolio
ledger, and the client-side series load path.  All numeric quantities are
modelled as rationals; JavaScript/Python integer counters are naturals.
-/

namespace TradingUI

/-- Trading signal attached to each bar (`'BUY' | 'SELL' | 'HOLD'`). -/
inductive Signal where
  | BUY
  | SELL
  | HOLD
deriving DecidableEq, Repr

/-- One raw OHLCV row as delivered by the provider (`hist.iterrows()`). -/
structure RawRow where
  date : String
  «open» : ℚ
  high : ℚ
  low : ℚ
  close : ℚ
  volume : ℤ
deriving DecidableEq, Repr

/-- Source: `daily_change = (row['Close'] - row['Open']) / row['Open'] * 100`.
The operands are numpy floats, so a zero `open` produces an infinite or NaN
change with only a runtime warning, never an exception; the rational
embedding returns 0 there (Lean's division-by-zero convention), which is why
every claim about the value of `changePct` or the derived signal carries an
`open ≠ 0` hypothesis. -/
def changePct (r : RawRow) : ℚ :=
  (r.close - r.«open») / r.«open» * 100

/-- Signal classification from `fetch_yfinance_data`:
`signal = 'HOLD'; if daily_change > 2: 'BUY'; elif daily_change < -2: 'SELL'`. -/
def classifySignal (dailyChange : ℚ) : Signal :=
  if dailyChange > 2 then Signal.BUY
  else if dailyChange < -2 then Signal.SELL
  else Signal.HOLD

/-- Round-half-to-even on a rational, modelling Python's `round(x)`. -/
def roundHalfEven (q : ℚ) : ℤ :=
  let f := ⌊q⌋
  if q - f < 1/2 then f
  else if 1/2 < q - f then f + 1
  else if f % 2 = 0 then f else f + 1

/-- Python's `round(x, 2)`: round to two decimal places, half to even. -/
def pyRound2 (q : ℚ) : ℚ :=
  (roundHalfEven (q * 100) : ℚ) / 100

/-- One normalized bar as appended to `candlestick_data`. -/
structure Bar where
  date : String
  «open» : ℚ
  high : ℚ
  low : ℚ
  close : ℚ
  volume : ℤ
  signal : Signal
  change : ℚ
deriving DecidableEq, Repr

/-- The per-row body of the loop in `fetch_yfinance_data`. -/
def mkBar (r : RawRow) : Bar :=
  { date := r.date
    «open» := pyRound2 r.«open»
    high := pyRound2 r.high
    low := pyRound2 r.low
    close := pyRound2 r.close
    volume := r.volume
    signal := classifySignal (changePct r)
    change := pyRound2 (changePct r) }

/-- Source: `fetch_yfinance_data`: returns `[]` when the provider history is
empty (`hist.empty`); otherwise every row is normalized by the loop body and
the full list is returned.  There is no per-row failure path: the loop
validates nothing, and a zero `open` does not raise (numpy float division by
zero yields inf/nan with a RuntimeWarning), so even such rows are appended. -/
def fetch_yfinance_data (rows : List RawRow) : List Bar :=
  if rows.isEmpty then []
  else rows.map mkBar

/-! ## Playback controller (`playStep`, `togglePlay`, `resetSystem`, speed slider) -/

/-- The chart/playback globals of the page script:
`totalDays`, `currentDay`, `isPlaying`, the interval handle (modelled as a
Boolean `timerOn`), and `playSpeed`. -/
structure ChartState where
  totalDays : Nat
  currentDay : Nat
  isPlaying : Bool
  timerOn : Bool
  playSpeed : Nat
deriving DecidableEq, Repr

/-- Source: `togglePlay()`: alerts and returns when no data is loaded; otherwise
starts the interval when paused and clears it when playing. -/
def togglePlay (s : ChartState) : ChartState :=
  if s.totalDays = 0 then s
  else if s.isPlaying then { s with isPlaying := false, timerOn := false }
  else { s with isPlaying := true, timerOn := true }

/-- Source: `playStep()`: when `currentDay >= totalDays` it stops playback
(`isPlaying = false`, `clearInterval`) and announces completion without
touching `currentDay`; otherwise `currentDay++`. -/
def playStep (s : ChartState) : ChartState :=
  if s.currentDay ≥ s.totalDays then { s with isPlaying := false, timerOn := false }
  else { s with currentDay := s.currentDay + 1 }

/-- The speed-slider handler: updates `playSpeed`; when playing, the running
interval is replaced (cleared and restarted), so the timer stays on. -/
def setSpeed (s : ChartState) (ms : Nat) : ChartState :=
  { s with playSpeed := ms }

/-- Source: `resetSystem()`: calls `togglePlay()` when playing, then `currentDay = 0`. -/
def resetSystem (s : ChartState) : ChartState :=
  let s' := if s.isPlaying then togglePlay s else s
  { s' with currentDay := 0 }

/-- The playback operations reachable from the UI. -/
inductive PlaybackOp where
  | playStepOp
  | togglePlayOp
  | setSpeedOp (ms : Nat)
  | resetOp
deriving DecidableEq, Repr

/-- Dispatch one playback operation. -/
def applyOp : PlaybackOp → ChartState → ChartState
  | PlaybackOp.playStepOp, s => playStep s
  | PlaybackOp.togglePlayOp, s => togglePlay s
  | PlaybackOp.setSpeedOp ms, s => setSpeed s ms
  | PlaybackOp.resetOp, s => resetSystem s

/-! ## Viewport & coordinate mapper (`drawChart`, geometry constants) -/

/-- Source: `chartPadding.left` (pixels). -/
def chartPaddingLeft : ℚ := 80

/-- Source: `chartPadding.right` (pixels). -/
def chartPaddingRight : ℚ := 50

/-- Source: `chartPadding.top` (pixels). -/
def chartPaddingTop : ℚ := 50

/-- Source: `chartPadding.bottom` (pixels). -/
def chartPaddingBottom : ℚ := 50

/-- Source: `canvas.height`, set to 500 by `initializeChart`/`adjustCanvasWidth`. -/
def canvasHeight : ℚ := 500

/-- Source: `candleWidth = 12` (never reassigned). -/
def candleWidth : ℚ := 12

/-- Source: `candleSpacing = 4` (never reassigned). -/
def candleSpacing : ℚ := 4

/-- Source: `chartHeight = canvas.height - chartPadding.top - chartPadding.bottom`. -/
def renderChartHeight : ℚ := canvasHeight - chartPaddingTop - chartPaddingBottom

/-- Source: `maxVisibleCandles = Math.floor(chartWidth / (candleWidth + candleSpacing))`
with `chartWidth = canvas.width - chartPadding.left - chartPadding.right`. -/
def maxVisibleCandlesOf (canvasWidth : Nat) : Nat :=
  (canvasWidth - 130) / 16

/-- The sliding-window start used identically by `drawChart` and
`handleSimpleMouseMove`:
`startIndex = currentDay > maxVisibleCandles ? currentDay - maxVisibleCandles : 0`. -/
def startIndex (cursor maxVisible : Nat) : Nat :=
  if cursor > maxVisible then cursor - maxVisible else 0

/-- Source: `endIndex = currentDay` in `drawChart`. -/
def endIndex (cursor : Nat) : Nat := cursor

/-- Source: `visibleData = chartData.slice(startIndex, endIndex)`. -/
def visibleData (data : List Bar) (cursor maxVisible : Nat) : List Bar :=
  (data.drop (startIndex cursor maxVisible)).take
    (endIndex cursor - startIndex cursor maxVisible)

/-- Source: `Math.min(...list)` over a spread array (none on the empty array, where the
JavaScript call would give `Infinity`, which `drawChart` never reaches). -/
def jsMathMin : List ℚ → Option ℚ
  | [] => none
  | x :: xs => some (xs.foldl min x)

/-- Source: `Math.max(...list)`, dually. -/
def jsMathMax : List ℚ → Option ℚ
  | [] => none
  | x :: xs => some (xs.foldl max x)

/-- The `minPrice`/`maxPrice` pair that `drawChart` stores into the globals. -/
structure Scale where
  minPrice : ℚ
  maxPrice : ℚ
deriving DecidableEq, Repr

/-- Lines 741–746 of `drawChart`: raw min over all lows and max over all highs
of the **entire** `chartData`, padded outward by `priceRange * 0.1`. -/
def computeScale (data : List Bar) : Option Scale :=
  match jsMathMin (data.map Bar.low), jsMathMax (data.map Bar.high) with
  | some lo, some hi => some ⟨lo - (hi - lo) * 0.1, hi + (hi - lo) * 0.1⟩
  | _, _ => none

/-- The viewport `drawChart` actually paints with: `none` when it takes one of
its early returns (`chartData` empty, or no candle revealed yet), otherwise
the window bounds and the price scale. -/
def drawChartViewport (data : List Bar) (cursor maxVisible : Nat) :
    Option (Nat × Nat × Scale) :=
  if data.isEmpty then none
  else if (visibleData data cursor maxVisible).isEmpty then none
  else (computeScale data).map
    (fun sc => (startIndex cursor maxVisible, endIndex cursor, sc))

/-! ## Pixel mappings shared by render pass and hit-test resolver -/

/-- Source: `priceToY` as written inline in `handleSimpleMouseMove`:
`chartPadding.top + (canvas.height - top - bottom) * (1 - (price-minPrice)/(maxPrice-minPrice))`. -/
def hitPriceToY (minP maxP price : ℚ) : ℚ :=
  chartPaddingTop + (canvasHeight - chartPaddingTop - chartPaddingBottom) *
    (1 - (price - minP) / (maxP - minP))

/-- Source: `priceToY` as written inline in `drawCandlestick`:
`chartPadding.top + chartHeight - (price-minPrice)/(maxPrice-minPrice) * chartHeight`. -/
def renderPriceToY (minP maxP price : ℚ) : ℚ :=
  chartPaddingTop + renderChartHeight - (price - minP) / (maxP - minP) * renderChartHeight

/-- Source: `candleStartX` in `handleSimpleMouseMove`:
`chartPadding.left + 20 + i * (candleWidth + candleSpacing)`. -/
def hitCandleStartX (i : Nat) : ℚ :=
  chartPaddingLeft + 20 + (i : ℚ) * (candleWidth + candleSpacing)

/-- The candle center `x` in `drawCandlestick`:
`chartPadding.left + 20 + index * (candleWidth + candleSpacing) + candleWidth / 2`;
the body rectangle spans `[x - candleWidth/2, x + candleWidth/2]`. -/
def renderCandleCenterX (i : Nat) : ℚ :=
  chartPaddingLeft + 20 + (i : ℚ) * (candleWidth + candleSpacing) + candleWidth / 2

/-! ## Hit-test & tooltip resolver (`handleSimpleMouseMove`) -/

/-- Source: `mouseX >= candleStartX && mouseX <= candleEndX`. -/
def xInCandle (x : ℚ) (i : Nat) : Bool :=
  decide (hitCandleStartX i ≤ x ∧ x ≤ hitCandleStartX i + candleWidth)

/-- Source: `mouseY >= candleTopY && mouseY <= candleBottomY` with
`candleTopY = priceToY(high)`, `candleBottomY = priceToY(low)`. -/
def yInCandle (minP maxP y : ℚ) (c : Bar) : Bool :=
  decide (hitPriceToY minP maxP c.high ≤ y ∧ y ≤ hitPriceToY minP maxP c.low)

/-- The `for (let i = 0; i < visibleCount; i++)` scan: the x-test is checked
first; only on an x-hit is `chartData[startIndex + i]` read (an out-of-range
read would throw, aborting the handler with no result) and the y-test checked;
the first full match returns `startIndex + i`. -/
def hitScan (data : List Bar) (start : Nat) (minP maxP x y : ℚ) :
    Nat → Nat → Option Nat
  | _, 0 => none
  | i, rem + 1 =>
    if xInCandle x i then
      match data.get? (start + i) with
      | none => none
      | some c =>
        if yInCandle minP maxP y c then some (start + i)
        else hitScan data start minP maxP x y (i + 1) rem
    else hitScan data start minP maxP x y (i + 1) rem

/-- Source: `handleSimpleMouseMove`: hides the tooltip (returns nothing) when
`currentDay === 0 || chartData.length === 0`; otherwise scans the
`visibleCount = Math.min(currentDay, maxVisibleCandles)` candles of the
sliding window and reports the index of the first candle hit. -/
def handleSimpleMouseMove (data : List Bar) (cursor maxVisible : Nat)
    (minP maxP x y : ℚ) : Option Nat :=
  if cursor = 0 || data.isEmpty then none
  else hitScan data (startIndex cursor maxVisible) minP maxP x y 0
    (min cursor maxVisible)

/-! ## Portfolio ledger -/

/-- One entry of `portfolioData`: `{ symbol, avgPrice, quantity, currentPrice }`. -/
structure Holding where
  symbol : String
  avgPrice : ℚ
  quantity : ℤ
  currentPrice : ℚ
deriving DecidableEq, Repr

/-- The four aggregates computed by `updatePortfolioSummary`. -/
structure PortfolioSummary where
  totalValue : ℚ
  totalCost : ℚ
  totalGainLoss : ℚ
  totalGainLossPercent : ℚ
deriving DecidableEq, Repr

/-- Source: `updatePortfolioSummary`: two `reduce`s over `portfolioData`, their
difference, and the zero-guarded percentage
`totalCost > 0 ? (totalGainLoss / totalCost) * 100 : 0`. -/
def updatePortfolioSummary (p : List Holding) : PortfolioSummary :=
  let totalValue := p.foldl (fun sum h => sum + h.currentPrice * (h.quantity : ℚ)) 0
  let totalCost := p.foldl (fun sum h => sum + h.avgPrice * (h.quantity : ℚ)) 0
  let totalGainLoss := totalValue - totalCost
  { totalValue := totalValue
    totalCost := totalCost
    totalGainLoss := totalGainLoss
    totalGainLossPercent := if totalCost > 0 then totalGainLoss / totalCost * 100 else 0 }

/-- The `portfolioForm` submit handler's mutation of `portfolioData`:
`findIndex(s => s.symbol === symbol)`; on a hit the element is overwritten
wholesale, otherwise the new record is pushed. -/
def upsertHolding (p : List Holding) (symbol : String) (avgPrice : ℚ)
    (quantity : ℤ) (currentPrice : ℚ) : List Holding :=
  match p.findIdx? (fun h => h.symbol == symbol) with
  | some i => p.set i ⟨symbol, avgPrice, quantity, currentPrice⟩
  | none => p ++ [⟨symbol, avgPrice, quantity, currentPrice⟩]

/-! ## Series load path (`/api/stock-data` + `runBacktest` client code) -/

/-- A JSON response body as seen by the client: either the bar array or the
error object `{"error": ...}` the route returns with status 404/500. -/
inductive JsonResp where
  | arr (bars : List Bar)
  | errObj (msg : String)
deriving DecidableEq, Repr

/-- The JavaScript test `data.length === 0`: true only for an empty array;
on the error object `data.length` is `undefined` and the comparison is false. -/
def jsLengthIsZero : JsonResp → Bool
  | JsonResp.arr l => l.isEmpty
  | JsonResp.errObj _ => false

/-- Source: `chartData.length` after `chartData = data`: `undefined` (here `none`)
when `data` was the error object. -/
def jsLength : JsonResp → Option Nat
  | JsonResp.arr l => some l.length
  | JsonResp.errObj _ => none

/-- Route `/api/stock-data/<ticker>`: body of the JSON response
(`jsonify(data)`, or the error object with status 404 when `not data`). -/
def api_stock_data (ticker : String) (rows : List RawRow) : JsonResp :=
  let data := fetch_yfinance_data rows
  if data.isEmpty then JsonResp.errObj ("No data found for " ++ ticker)
  else JsonResp.arr data

/-- The client-side chart globals touched by the load in `runBacktest`. -/
structure LoadState where
  chartData : JsonResp
  totalDays : Option Nat
  currentDay : Nat
deriving DecidableEq, Repr

/-- The state mutation of `runBacktest` after `data = await response.json()`:
`if (data.length === 0) throw ...` (the `catch` leaves the chart state
untouched); otherwise `chartData = data; totalDays = chartData.length;
currentDay = 0`. -/
def runBacktestLoad (st : LoadState) (resp : JsonResp) : LoadState :=
  if jsLengthIsZero resp then st
  else { chartData := resp, totalDays := jsLength resp, currentDay := 0 }

/-! ## Theorems -/

/-- C1: for every playback state (hence every reachable one), a tick with
`cursor = len(Series)` stops the timer and playback and leaves the cursor
unchanged (the `Complete` configuration); a tick with `cursor < len(Series)`
increments the cursor by exactly 1; no playback operation other than
`reset()` ever decreases the cursor; and after `reset()` the cursor is 0
regardless of the prior state. -/
theorem c1_tick_and_reset_cursor (s : ChartState) :
    (s.currentDay = s.totalDays →
      playStep s = { s with isPlaying := false, timerOn := false }) ∧
    (s.currentDay < s.totalDays → (playStep s).currentDay = s.currentDay + 1) ∧
    (∀ op : PlaybackOp, op ≠ PlaybackOp.resetOp →
      s.currentDay ≤ (applyOp op s).currentDay) ∧
    (resetSystem s).currentDay = 0 := by
  refine ⟨?_, ?_, ?_, ?_⟩
  · intro h
    simp [playStep, h]
  · intro h
    simp [playStep, Nat.not_le.mpr h]
  · intro op hop
    cases op with
    | playStepOp =>
      simp only [applyOp, playStep]
      split
      · exact le_refl _
      · exact Nat.le_succ _
    | togglePlayOp =>
      simp only [applyOp, togglePlay]
      split_ifs <;> exact le_refl _
    | setSpeedOp ms =>
      exact le_refl _
    | resetOp =>
      exact absurd rfl hop
  · rfl

/-- Witness for C1 at concrete states. -/
theorem c1_tick_and_reset_cursor_witness :
    playStep ⟨3, 3, true, true, 100⟩ = ⟨3, 3, false, false, 100⟩ ∧
    (playStep ⟨3, 1, true, true, 100⟩).currentDay = 2 ∧
    (1 : Nat) ≤ (applyOp PlaybackOp.playStepOp ⟨3, 1, true, true, 100⟩).currentDay ∧
    (resetSystem ⟨3, 2, true, true, 100⟩).currentDay = 0 :=
  ⟨(c1_tick_and_reset_cursor ⟨3, 3, true, true, 100⟩).1 rfl,
   (c1_tick_and_reset_cursor ⟨3, 1, true, true, 100⟩).2.1 (by decide),
   (c1_tick_and_reset_cursor ⟨3, 1, true, true, 100⟩).2.2.1
     PlaybackOp.playStepOp (by decide),
   (c1_tick_and_reset_cursor ⟨3, 2, true, true, 100⟩).2.2.2⟩

/-- C2: the visible window is the right-anchored slide
`startIndex = max(0, cursor - maxVisible)`, `endIndex = cursor`, so the
window never exceeds `maxVisible` bars and holds exactly
`min(cursor, maxVisible)` of them; a canvas of width 1090 yields
`maxVisible = 60`; after 100 ticks with `maxVisible = 60` the window is
`[40, 100)`; and at cursor 0 (after reset) the visible slice is empty. -/
theorem c2_sliding_window (data : List Bar) (cursor maxVisible : Nat) :
    ((startIndex cursor maxVisible : ℤ) =
      max 0 ((cursor : ℤ) - (maxVisible : ℤ))) ∧
    endIndex cursor - startIndex cursor maxVisible ≤ maxVisible ∧
    endIndex cursor - startIndex cursor maxVisible = min cursor maxVisible ∧
    maxVisibleCandlesOf 1090 = 60 ∧
    startIndex 100 60 = 40 ∧
    endIndex 100 = 100 ∧
    visibleData data 0 maxVisible = [] := by
  refine ⟨?_, ?_, ?_, by decide, by decide, rfl, ?_⟩
  · unfold startIndex
    split <;> push_cast <;> omega
  · unfold endIndex startIndex
    split <;> omega
  · unfold endIndex startIndex
    split <;> omega
  · simp [visibleData, startIndex, endIndex]

/-- C4: a bar produced by the normalizer carries signal BUY iff its
percentage change exceeds 2, SELL iff it is below -2, HOLD otherwise,
and at exactly plus or minus 2 the signal is HOLD. -/
theorem c4_signal_classification (r : RawRow) (_hopen : r.«open» ≠ 0) :
    ((mkBar r).signal = Signal.BUY ↔ 2 < changePct r) ∧
    ((mkBar r).signal = Signal.SELL ↔ changePct r < -2) ∧
    ((mkBar r).signal = Signal.HOLD ↔ -2 ≤ changePct r ∧ changePct r ≤ 2) ∧
    (changePct r = 2 → (mkBar r).signal = Signal.HOLD) ∧
    (changePct r = -2 → (mkBar r).signal = Signal.HOLD) := by
  have hsig : (mkBar r).signal = classifySignal (changePct r) := rfl
  rw [hsig]
  unfold classifySignal
  split_ifs with h1 h2
  · refine ⟨by simp [h1], by simp; linarith, by simp; intro h; linarith, ?_, ?_⟩
    · intro h; linarith
    · intro h; linarith
  · refine ⟨by simp; linarith, by simp [h2], by simp; intro h; linarith, ?_, ?_⟩
    · intro h; linarith
    · intro h; linarith
  · refine ⟨by simp; linarith, by simp; linarith, by simp; constructor <;> linarith,
      fun _ => rfl, fun _ => rfl⟩

/-- Witness for C4: a bar with a 5 percent gain is classified BUY. -/
theorem c4_signal_classification_witness :
    (mkBar ⟨("d"), 100, 110, 90, 105, 0⟩).signal = Signal.BUY :=
  (c4_signal_classification ⟨("d"), 100, 110, 90, 105, 0⟩ (by norm_num)).1.mpr
    (by norm_num [changePct])

/-- C10: the pointer-move resolver reports no bar (tooltip hidden) at every
pointer position whenever the cursor is 0 or the series is empty. -/
theorem c10_resolver_guards (data : List Bar) (cursor maxVisible : Nat)
    (minP maxP x y : ℚ) :
    handleSimpleMouseMove data 0 maxVisible minP maxP x y = none ∧
    handleSimpleMouseMove [] cursor maxVisible minP maxP x y = none := by
  constructor
  · simp [handleSimpleMouseMove]
  · simp [handleSimpleMouseMove]

/-- C6 counterexample: on the spec's own two holdings the code yields
`totalValue = 2050`, `totalGainLoss = +50`, `totalGainLossPct = +2.5`
(AAPL is worth 110·10 = 1100, not 1000), refuting the claimed
`1950 / -50 / -2.5`. -/
theorem c6_counterexample :
    (updatePortfolioSummary
      [⟨("AAPL"), 100, 10, 110⟩, ⟨("MSFT"), 200, 5, 190⟩]).totalValue = 2050 ∧
    (updatePortfolioSummary
      [⟨("AAPL"), 100, 10, 110⟩, ⟨("MSFT"), 200, 5, 190⟩]).totalGainLoss = 50 ∧
    (updatePortfolioSummary
      [⟨("AAPL"), 100, 10, 110⟩, ⟨("MSFT"), 200, 5, 190⟩]).totalGainLossPercent
      = 5/2 ∧
    ¬((updatePortfolioSummary
        [⟨("AAPL"), 100, 10, 110⟩, ⟨("MSFT"), 200, 5, 190⟩]).totalValue = 1950 ∧
      (updatePortfolioSummary
        [⟨("AAPL"), 100, 10, 110⟩, ⟨("MSFT"), 200, 5, 190⟩]).totalGainLoss = -50 ∧
      (updatePortfolioSummary
        [⟨("AAPL"), 100, 10, 110⟩, ⟨("MSFT"), 200, 5, 190⟩]).totalGainLossPercent
        = -(5/2)) := by
  refine ⟨by norm_num [updatePortfolioSummary], by norm_num [updatePortfolioSummary],
    by norm_num [updatePortfolioSummary], ?_⟩
  rintro ⟨h, -, -⟩
  norm_num [updatePortfolioSummary] at h

/-- Auxiliary: a left fold accumulating sums equals the initial value plus the
sum of the mapped list. -/
theorem foldl_add_map_sum (f : Holding → ℚ) (p : List Holding) :
    ∀ a : ℚ, p.foldl (fun sum h => sum + f h) a = a + (p.map f).sum := by
  induction p with
  | nil => intro a; simp
  | cons h t ih =>
    intro a
    simp only [List.foldl_cons, List.map_cons, List.sum_cons, ih]
    ring

/-- C6 (amended): the summary aggregates are the sums
`totalValue = Σ currentPrice·quantity`, `totalCost = Σ avgPrice·quantity`,
`totalGainLoss = totalValue - totalCost`, the percentage is
`totalGainLoss / totalCost · 100` when the cost basis is positive and exactly
0 when it is 0; on the spec's two holdings this gives
`totalValue = 2050`, `totalGainLoss = +50`, `totalGainLossPct = +2.5`. -/
theorem c6_summary_formulas (p : List Holding) :
    (updatePortfolioSummary p).totalValue =
      (p.map (fun h => h.currentPrice * (h.quantity : ℚ))).sum ∧
    (updatePortfolioSummary p).totalCost =
      (p.map (fun h => h.avgPrice * (h.quantity : ℚ))).sum ∧
    (updatePortfolioSummary p).totalGainLoss =
      (updatePortfolioSummary p).totalValue - (updatePortfolioSummary p).totalCost ∧
    (0 < (updatePortfolioSummary p).totalCost →
      (updatePortfolioSummary p).totalGainLossPercent =
        (updatePortfolioSummary p).totalGainLoss /
          (updatePortfolioSummary p).totalCost * 100) ∧
    ((updatePortfolioSummary p).totalCost = 0 →
      (updatePortfolioSummary p).totalGainLossPercent = 0) ∧
    updatePortfolioSummary [⟨("AAPL"), 100, 10, 110⟩, ⟨("MSFT"), 200, 5, 190⟩] =
      ⟨2050, 2000, 50, 5/2⟩ := by
  refine ⟨?_, ?_, rfl, ?_, ?_, by norm_num [updatePortfolioSummary]⟩
  · simp [updatePortfolioSummary, foldl_add_map_sum]
  · simp [updatePortfolioSummary, foldl_add_map_sum]
  · intro hpos
    simp only [updatePortfolioSummary] at hpos ⊢
    rw [if_pos hpos]
  · intro hzero
    simp only [updatePortfolioSummary] at hzero ⊢
    rw [hzero]
    simp

/-- Witness for C6 (amended) at a one-holding portfolio with positive cost. -/
theorem c6_summary_formulas_witness :
    (updatePortfolioSummary [⟨("X"), 2, 3, 4⟩]).totalGainLossPercent =
      (updatePortfolioSummary [⟨("X"), 2, 3, 4⟩]).totalGainLoss /
        (updatePortfolioSummary [⟨("X"), 2, 3, 4⟩]).totalCost * 100 :=
  (c6_summary_formulas [⟨("X"), 2, 3, 4⟩]).2.2.2.1
    (by norm_num [updatePortfolioSummary])

/-- C9 (code bug): with a one-bar series loaded and the cursor at 1, a fetch
that returns zero rows makes the server answer the error object; the client
guard `data.length === 0` is false for that object, so the load path
overwrites `chartData` with the error object, sets `totalDays` to `undefined`
and resets the cursor to 0 — the prior series and cursor are NOT left
untouched. -/
theorem c9_empty_fetch_clobbers_state :
    runBacktestLoad
        ⟨JsonResp.arr [mkBar ⟨("d"), 100, 110, 90, 105, 0⟩], some 1, 1⟩
        (api_stock_data ("TSLA") []) =
      ⟨JsonResp.errObj ("No data found for TSLA"), none, 0⟩ ∧
    runBacktestLoad
        ⟨JsonResp.arr [mkBar ⟨("d"), 100, 110, 90, 105, 0⟩], some 1, 1⟩
        (api_stock_data ("TSLA") []) ≠
      ⟨JsonResp.arr [mkBar ⟨("d"), 100, 110, 90, 105, 0⟩], some 1, 1⟩ := by
  constructor
  · rfl
  · decide

/-- Auxiliary: a left fold of `min` never exceeds its initial value. -/
theorem foldl_min_le_init (xs : List ℚ) : ∀ a : ℚ, xs.foldl min a ≤ a := by
  induction xs with
  | nil => intro a; simp
  | cons x t ih =>
    intro a
    exact le_trans (ih (min a x)) (min_le_left a x)

/-- Auxiliary: a left fold of `min` is a lower bound of the list. -/
theorem foldl_min_le_mem (xs : List ℚ) :
    ∀ a : ℚ, ∀ x ∈ xs, xs.foldl min a ≤ x := by
  induction xs with
  | nil => intro a x hx; simp at hx
  | cons y t ih =>
    intro a x hx
    rcases List.mem_cons.mp hx with rfl | hx'
    · exact le_trans (foldl_min_le_init t (min a x)) (min_le_right a x)
    · exact ih (min a y) x hx'

/-- Auxiliary: a left fold of `min` is the initial value or an element. -/
theorem foldl_min_mem (xs : List ℚ) :
    ∀ a : ℚ, xs.foldl min a = a ∨ xs.foldl min a ∈ xs := by
  induction xs with
  | nil => intro a; left; rfl
  | cons y t ih =>
    intro a
    rcases ih (min a y) with h | h
    · rcases min_choice a y with h' | h'
      · left; rw [List.foldl_cons, h, h']
      · right; rw [List.foldl_cons, h, h']; exact List.mem_cons_self y t
    · right; exact List.mem_cons_of_mem y h

/-- Auxiliary: a left fold of `max` is at least its initial value. -/
theorem le_foldl_max_init (xs : List ℚ) : ∀ a : ℚ, a ≤ xs.foldl max a := by
  induction xs with
  | nil => intro a; simp
  | cons x t ih =>
    intro a
    exact le_trans (le_max_left a x) (ih (max a x))

/-- Auxiliary: a left fold of `max` is an upper bound of the list. -/
theorem mem_le_foldl_max (xs : List ℚ) :
    ∀ a : ℚ, ∀ x ∈ xs, x ≤ xs.foldl max a := by
  induction xs with
  | nil => intro a x hx; simp at hx
  | cons y t ih =>
    intro a x hx
    rcases List.mem_cons.mp hx with rfl | hx'
    · exact le_trans (le_max_right a x) (le_foldl_max_init t (max a x))
    · exact ih (max a y) x hx'

/-- Auxiliary: a left fold of `max` is the initial value or an element. -/
theorem foldl_max_mem (xs : List ℚ) :
    ∀ a : ℚ, xs.foldl max a = a ∨ xs.foldl max a ∈ xs := by
  induction xs with
  | nil => intro a; left; rfl
  | cons y t ih =>
    intro a
    rcases ih (max a y) with h | h
    · rcases max_choice a y with h' | h'
      · left; rw [List.foldl_cons, h, h']
      · right; rw [List.foldl_cons, h, h']; exact List.mem_cons_self y t
    · right; exact List.mem_cons_of_mem y h

/-- Auxiliary: the value of `Math.min(...l)` belongs to `l` and bounds it. -/
theorem jsMathMin_spec (l : List ℚ) (m : ℚ) (h : jsMathMin l = some m) :
    m ∈ l ∧ ∀ x ∈ l, m ≤ x := by
  cases l with
  | nil => simp [jsMathMin] at h
  | cons x xs =>
    simp only [jsMathMin, Option.some.injEq] at h
    subst h
    refine ⟨?_, ?_⟩
    · rcases foldl_min_mem xs x with h | h
      · rw [h]; exact List.mem_cons_self x xs
      · exact List.mem_cons_of_mem x h
    · intro z hz
      rcases List.mem_cons.mp hz with rfl | hz'
      · exact foldl_min_le_init xs z
      · exact foldl_min_le_mem xs x z hz'

/-- Auxiliary: the value of `Math.max(...l)` belongs to `l` and bounds it. -/
theorem jsMathMax_spec (l : List ℚ) (m : ℚ) (h : jsMathMax l = some m) :
    m ∈ l ∧ ∀ x ∈ l, x ≤ m := by
  cases l with
  | nil => simp [jsMathMax] at h
  | cons x xs =>
    simp only [jsMathMax, Option.some.injEq] at h
    subst h
    refine ⟨?_, ?_⟩
    · rcases foldl_max_mem xs x with h | h
      · rw [h]; exact List.mem_cons_self x xs
      · exact List.mem_cons_of_mem x h
    · intro z hz
      rcases List.mem_cons.mp hz with rfl | hz'
      · exact le_foldl_max_init xs z
      · exact mem_le_foldl_max xs x z hz'

/-- C5: the price scale of the viewport comes from the whole series — the raw
minimum over all lows and maximum over all highs (both attained and bounding
every bar), padded outward by 10 percent of the unpadded range; the render
pass's `priceToY` equals `top + height·(1 − (p − priceMin)/(priceMax −
priceMin))` and coincides with the hit-test's mapping; and whatever cursor
`drawChart` paints at, the scale it uses is this same cursor-independent
value. -/
theorem c5_price_scale (data : List Bar) (lo hi : ℚ)
    (hlo : jsMathMin (data.map Bar.low) = some lo)
    (hhi : jsMathMax (data.map Bar.high) = some hi) :
    (∀ b ∈ data, lo ≤ b.low ∧ b.high ≤ hi) ∧
    (∃ b ∈ data, b.low = lo) ∧
    (∃ b ∈ data, b.high = hi) ∧
    computeScale data = some ⟨lo - (hi - lo) * 0.1, hi + (hi - lo) * 0.1⟩ ∧
    (∀ minP maxP p, renderPriceToY minP maxP p =
        chartPaddingTop + renderChartHeight * (1 - (p - minP) / (maxP - minP)) ∧
      hitPriceToY minP maxP p = renderPriceToY minP maxP p) ∧
    (∀ c m s e sc, drawChartViewport data c m = some (s, e, sc) →
      sc = ⟨lo - (hi - lo) * 0.1, hi + (hi - lo) * 0.1⟩) := by
  have hscale : computeScale data =
      some ⟨lo - (hi - lo) * 0.1, hi + (hi - lo) * 0.1⟩ := by
    unfold computeScale
    rw [hlo, hhi]
  refine ⟨?_, ?_, ?_, hscale, ?_, ?_⟩
  · intro b hb
    exact ⟨(jsMathMin_spec _ _ hlo).2 b.low (List.mem_map_of_mem Bar.low hb),
      (jsMathMax_spec _ _ hhi).2 b.high (List.mem_map_of_mem Bar.high hb)⟩
  · obtain ⟨b, hb, hb'⟩ := List.mem_map.mp (jsMathMin_spec _ _ hlo).1
    exact ⟨b, hb, hb'⟩
  · obtain ⟨b, hb, hb'⟩ := List.mem_map.mp (jsMathMax_spec _ _ hhi).1
    exact ⟨b, hb, hb'⟩
  · intro minP maxP p
    constructor
    · unfold renderPriceToY renderChartHeight canvasHeight chartPaddingTop
        chartPaddingBottom
      ring
    · unfold hitPriceToY renderPriceToY renderChartHeight canvasHeight
        chartPaddingTop chartPaddingBottom
      ring
  · intro c m s e sc hview
    unfold drawChartViewport at hview
    rw [hscale] at hview
    split_ifs at hview
    simp only [Option.map_some', Option.some.injEq, Prod.mk.injEq] at hview
    exact hview.2.2.symm

/-- Witness for C5 on a one-bar series: low 40, high 60, padded to 38 and 62. -/
theorem c5_price_scale_witness :
    computeScale [⟨("d"), 50, 60, 40, 55, 0, Signal.HOLD, 0⟩] =
      some ⟨40 - (60 - 40) * 0.1, 60 + (60 - 40) * 0.1⟩ :=
  (c5_price_scale [⟨("d"), 50, 60, 40, 55, 0, Signal.HOLD, 0⟩] 40 60
    (by rfl) (by rfl)).2.2.2.1

/-- C8 counterexample: the row `(open 10, high 5, low 20, close 10)` violates
the OHLC invariant `low ≤ open,close ≤ high`, yet the normalizer raises no
`MalformedBar`: it produces a full one-bar series from it; likewise a row
with `open = 0` does not fail — it too is normalized into a bar (in the
program with an inf/nan change and only a runtime warning), so a one-bar
series comes back instead of the claimed failure. -/
theorem c8_counterexample :
    fetch_yfinance_data [⟨("2024-01-02"), 10, 5, 20, 10, 0⟩] =
      [mkBar ⟨("2024-01-02"), 10, 5, 20, 10, 0⟩] ∧
    (fetch_yfinance_data [⟨("2024-01-02"), 10, 5, 20, 10, 0⟩]).length = 1 ∧
    ¬((⟨("2024-01-02"), 10, 5, 20, 10, 0⟩ : RawRow).low ≤
        (⟨("2024-01-02"), 10, 5, 20, 10, 0⟩ : RawRow).«open» ∧
      (⟨("2024-01-02"), 10, 5, 20, 10, 0⟩ : RawRow).«open» ≤
        (⟨("2024-01-02"), 10, 5, 20, 10, 0⟩ : RawRow).high) ∧
    (fetch_yfinance_data [⟨("2024-01-03"), 0, 5, 0, 3, 0⟩]).length = 1 ∧
    (⟨("2024-01-03"), 0, 5, 0, 3, 0⟩ : RawRow).«open» = 0 := by
  refine ⟨rfl, rfl, ?_, rfl, rfl⟩
  rintro ⟨h, -⟩
  norm_num at h

/-- C8 (amended): the normalizer returns the empty list (surfaced by the
route as the 404 "no data" failure) when and only when the provider returns
zero rows; there is no `MalformedBar` failure of any kind: a row with
`open == 0` does not raise (numpy float division by zero yields inf/nan with
a runtime warning) and the OHLC invariant is never checked, so every row of
a non-empty history — zero-open or OHLC-violating included — is normalized
into a bar and the full-length series is returned. -/
theorem c8_normalizer_failure_modes (rows : List RawRow) :
    (rows = [] → fetch_yfinance_data rows = []) ∧
    (rows ≠ [] → fetch_yfinance_data rows = rows.map mkBar) ∧
    (rows ≠ [] → (fetch_yfinance_data rows).length = rows.length) := by
  have hmap : rows ≠ [] → fetch_yfinance_data rows = rows.map mkBar := by
    intro hne
    unfold fetch_yfinance_data
    rw [if_neg (by simpa using hne)]
  refine ⟨?_, hmap, ?_⟩
  · rintro rfl; rfl
  · intro hne
    rw [hmap hne, List.length_map]

/-- Witness for C8 (amended): a one-row history is normalized in full. -/
theorem c8_normalizer_failure_modes_witness :
    fetch_yfinance_data [⟨("d"), 100, 110, 90, 105, 0⟩] =
      [⟨("d"), 100, 110, 90, 105, 0⟩].map mkBar :=
  (c8_normalizer_failure_modes [⟨("d"), 100, 110, 90, 105, 0⟩]).2.1 (by simp)

/-- Auxiliary: upserting into the empty portfolio appends the new record. -/
theorem upsertHolding_nil (s : String) (a : ℚ) (q : ℤ) (c : ℚ) :
    upsertHolding [] s a q c = [⟨s, a, q, c⟩] := rfl

/-- Auxiliary: when the head matches the symbol, upsert overwrites the head. -/
theorem upsertHolding_cons_eq (h : Holding) (t : List Holding) (s : String)
    (a : ℚ) (q : ℤ) (c : ℚ) (hs : h.symbol = s) :
    upsertHolding (h :: t) s a q c = ⟨s, a, q, c⟩ :: t := by
  simp [upsertHolding, List.findIdx?_cons, hs]

/-- Auxiliary: when the head does not match, upsert passes over the head. -/
theorem upsertHolding_cons_ne (h : Holding) (t : List Holding) (s : String)
    (a : ℚ) (q : ℤ) (c : ℚ) (hs : h.symbol ≠ s) :
    upsertHolding (h :: t) s a q c = h :: upsertHolding t s a q c := by
  have hb : (h.symbol == s) = false := beq_eq_false_iff_ne.mpr hs
  cases hfi : t.findIdx? (fun x => x.symbol == s) with
  | none => simp [upsertHolding, List.findIdx?_cons, hb, hfi]
  | some i => simp [upsertHolding, List.findIdx?_cons, hb, hfi]

/-- Auxiliary: a symbol present after an upsert was present before or is the
upserted symbol. -/
theorem symbol_mem_upsert (s x : String) (a : ℚ) (q : ℤ) (c : ℚ) :
    ∀ t : List Holding, x ∈ (upsertHolding t s a q c).map Holding.symbol →
      x ∈ t.map Holding.symbol ∨ x = s := by
  intro t
  induction t with
  | nil =>
    intro hx
    rw [upsertHolding_nil] at hx
    simp at hx
    right; exact hx
  | cons y ys ih =>
    intro hx
    by_cases hy : y.symbol = s
    · rw [upsertHolding_cons_eq _ _ _ _ _ _ hy] at hx
      simp only [List.map_cons, List.mem_cons] at hx
      rcases hx with rfl | hx
      · right; rfl
      · left
        rw [List.map_cons]
        exact List.mem_cons_of_mem _ hx
    · rw [upsertHolding_cons_ne _ _ _ _ _ _ hy] at hx
      simp only [List.map_cons, List.mem_cons] at hx
      rcases hx with rfl | hx
      · left
        rw [List.map_cons]
        exact List.mem_cons_self _ _
      · rcases ih hx with h1 | h1
        · left
          rw [List.map_cons]
          exact List.mem_cons_of_mem _ h1
        · right; exact h1

/-- Auxiliary: a list none of whose symbols is `s` has no `s`-filtered part. -/
theorem filter_symbol_eq_nil (s : String) :
    ∀ t : List Holding, s ∉ t.map Holding.symbol →
      t.filter (fun h => h.symbol == s) = [] := by
  intro t
  induction t with
  | nil => intro _; rfl
  | cons y ys ih =>
    intro hs
    simp only [List.map_cons, List.mem_cons] at hs
    push_neg at hs
    rw [List.filter_cons, if_neg ?_]
    · exact ih hs.2
    · simp only [beq_iff_eq]
      exact fun h => hs.1 h.symm

/-- C7: upserting the same symbol twice (with a symbol-unique portfolio, the
invariant every reachable portfolio satisfies) leaves exactly one holding for
that symbol, carrying the values of the second call (full overwrite, no
merge); every other holding is untouched; and symbol-uniqueness is
preserved. -/
theorem c7_upsert_replace (p : List Holding) (s : String) (a₁ a₂ : ℚ)
    (q₁ q₂ : ℤ) (c₁ c₂ : ℚ) (hnd : (p.map Holding.symbol).Nodup) :
    (upsertHolding (upsertHolding p s a₁ q₁ c₁) s a₂ q₂ c₂).filter
        (fun h => h.symbol == s) = [⟨s, a₂, q₂, c₂⟩] ∧
    (upsertHolding (upsertHolding p s a₁ q₁ c₁) s a₂ q₂ c₂).filter
        (fun h => !(h.symbol == s)) = p.filter (fun h => !(h.symbol == s)) ∧
    ((upsertHolding (upsertHolding p s a₁ q₁ c₁) s a₂ q₂ c₂).map
        Holding.symbol).Nodup := by
  induction p with
  | nil =>
    rw [upsertHolding_nil, upsertHolding_cons_eq _ _ _ _ _ _ rfl]
    refine ⟨by simp, by simp, by simp⟩
  | cons h t ih =>
    simp only [List.map_cons, List.nodup_cons] at hnd
    obtain ⟨hh, hnd'⟩ := hnd
    by_cases hs : h.symbol = s
    · rw [upsertHolding_cons_eq _ _ _ _ _ _ hs, upsertHolding_cons_eq _ _ _ _ _ _ rfl]
      subst hs
      refine ⟨?_, ?_, ?_⟩
      · rw [List.filter_cons, if_pos (by simp)]
        rw [filter_symbol_eq_nil _ t hh]
      · rw [List.filter_cons, List.filter_cons]
        simp
      · simp only [List.map_cons, List.nodup_cons]
        exact ⟨hh, hnd'⟩
    · rw [upsertHolding_cons_ne _ _ _ _ _ _ hs, upsertHolding_cons_ne _ _ _ _ _ _ hs]
      obtain ⟨ih1, ih2, ih3⟩ := ih hnd'
      have hb : (h.symbol == s) = false := beq_eq_false_iff_ne.mpr hs
      refine ⟨?_, ?_, ?_⟩
      · rw [List.filter_cons, if_neg (by simp [hb])]
        exact ih1
      · rw [List.filter_cons, List.filter_cons, if_pos (by simp [hb]),
          if_pos (by simp [hb]), ih2]
      · simp only [List.map_cons, List.nodup_cons]
        refine ⟨?_, ih3⟩
        intro hmem
        rcases symbol_mem_upsert s h.symbol a₂ q₂ c₂ _ hmem with h1 | h1
        · rcases symbol_mem_upsert s h.symbol a₁ q₁ c₁ t h1 with h2 | h2
          · exact hh h2
          · exact hs h2
        · exact hs h1

/-- Witness for C7: two upserts of AAPL into a TSLA-only portfolio. -/
theorem c7_upsert_replace_witness :
    (upsertHolding (upsertHolding [⟨("TSLA"), 50, 1, 60⟩] ("AAPL") 100 10 110)
        ("AAPL") 120 5 130).filter (fun h => h.symbol == ("AAPL")) =
      [⟨("AAPL"), 120, 5, 130⟩] :=
  (c7_upsert_replace [⟨("TSLA"), 50, 1, 60⟩] ("AAPL") 100 120 10 5 110 130
    (by simp)).1

/-- Auxiliary: the shared price-to-pixel map is antitone in the price. -/
theorem hitPriceToY_le_of_le (minP maxP p₁ p₂ : ℚ) (hlt : minP < maxP)
    (h : p₁ ≤ p₂) :
    hitPriceToY minP maxP p₂ ≤ hitPriceToY minP maxP p₁ := by
  have hd : (0 : ℚ) < maxP - minP := by linarith
  have hr : (p₁ - minP) / (maxP - minP) ≤ (p₂ - minP) / (maxP - minP) := by
    rw [div_le_div_iff₀ hd hd]
    nlinarith
  unfold hitPriceToY canvasHeight chartPaddingTop chartPaddingBottom
  linarith

/-- Auxiliary: the visible-candle scan of `handleSimpleMouseMove`, started
anywhere at or before candle `k`, returns `startIndex + k` for a pointer at
the x-center of candle `k` whose y passes the candle-`k` vertical test: the
candles' x-intervals are 4 pixels apart, so no earlier candle can match. -/
theorem hitScan_finds_center (data : List Bar) (start : Nat) (minP maxP : ℚ)
    (k : Nat) (b : Bar) (hb : data.get? (start + k) = some b)
    (hy : yInCandle minP maxP
      ((hitPriceToY minP maxP b.«open» + hitPriceToY minP maxP b.close) / 2) b
      = true) :
    ∀ rem i, i ≤ k → k < i + rem →
      hitScan data start minP maxP (hitCandleStartX k + candleWidth / 2)
        ((hitPriceToY minP maxP b.«open» + hitPriceToY minP maxP b.close) / 2)
        i rem = some (start + k) := by
  intro rem
  induction rem with
  | zero =>
    intro i h1 h2
    exact absurd h2 (by omega)
  | succ rem ih =>
    intro i h1 h2
    rcases eq_or_lt_of_le h1 with heq | hik
    · subst heq
      have hx : xInCandle (hitCandleStartX i + candleWidth / 2) i = true := by
        rw [xInCandle]
        apply decide_eq_true
        unfold candleWidth
        constructor <;> linarith
      simp only [hitScan, hx, if_true, hb, hy]
    · have hx : xInCandle (hitCandleStartX k + candleWidth / 2) i = false := by
        rw [xInCandle]
        apply decide_eq_false
        rintro ⟨-, hB⟩
        unfold hitCandleStartX candleWidth candleSpacing chartPaddingLeft at hB
        have hcast : (i : ℚ) + 1 ≤ (k : ℚ) := by exact_mod_cast hik
        nlinarith
      simp only [hitScan, hx, Bool.false_eq_true, if_false]
      exact ih (i + 1) (by omega) (by omega)

/-- C3: the hit-test resolver and the render pass use the same geometry —
the resolver's inline `priceToY` equals the render pass's, and the
x-interval the resolver tests, `[candleStartX(i), candleStartX(i) +
candleWidth]`, is exactly the render pass's body rectangle
`[centerX(i) - candleWidth/2, centerX(i) + candleWidth/2]`; consequently a
pointer at the exact center of visible candle `k`'s body (its x-center, at
the mid-height of the open/close body, inside `[priceToY(high),
priceToY(low)]` by the OHLC ordering) makes the resolver return bar
`startIndex + k`. -/
theorem c3_hit_test_matches_render (data : List Bar) (cursor maxVisible : Nat)
    (minP maxP : ℚ) (k : Nat) (b : Bar)
    (hrange : minP < maxP)
    (hk : k < min cursor maxVisible)
    (hb : data.get? (startIndex cursor maxVisible + k) = some b)
    (hlo : b.low ≤ b.«open») (hho : b.«open» ≤ b.high)
    (hlc : b.low ≤ b.close) (hhc : b.close ≤ b.high) :
    (∀ p, hitPriceToY minP maxP p = renderPriceToY minP maxP p) ∧
    (∀ i : Nat, hitCandleStartX i = renderCandleCenterX i - candleWidth / 2 ∧
      hitCandleStartX i + candleWidth = renderCandleCenterX i + candleWidth / 2) ∧
    handleSimpleMouseMove data cursor maxVisible minP maxP
      (hitCandleStartX k + candleWidth / 2)
      ((hitPriceToY minP maxP b.«open» + hitPriceToY minP maxP b.close) / 2) =
      some (startIndex cursor maxVisible + k) := by
  refine ⟨?_, ?_, ?_⟩
  · intro p
    unfold hitPriceToY renderPriceToY renderChartHeight canvasHeight
      chartPaddingTop chartPaddingBottom
    ring
  · intro i
    unfold hitCandleStartX renderCandleCenterX candleWidth candleSpacing
      chartPaddingLeft
    constructor <;> ring
  · have hy : yInCandle minP maxP
        ((hitPriceToY minP maxP b.«open» + hitPriceToY minP maxP b.close) / 2) b
        = true := by
      rw [yInCandle]
      apply decide_eq_true
      constructor
      · have h1 := hitPriceToY_le_of_le minP maxP b.«open» b.high hrange hho
        have h2 := hitPriceToY_le_of_le minP maxP b.close b.high hrange hhc
        linarith
      · have h3 := hitPriceToY_le_of_le minP maxP b.low b.«open» hrange hlo
        have h4 := hitPriceToY_le_of_le minP maxP b.low b.close hrange hlc
        linarith
    have hcursor : ¬cursor = 0 := by
      have hmle := Nat.min_le_left cursor maxVisible
      omega
    have hdata : data.isEmpty = false := by
      cases data with
      | nil => simp at hb
      | cons z zs => rfl
    have hguard : (decide (cursor = 0) || data.isEmpty) = false := by
      rw [hdata, Bool.or_false, decide_eq_false hcursor]
    unfold handleSimpleMouseMove
    simp only [hguard, Bool.false_eq_true, if_false]
    exact hitScan_finds_center data (startIndex cursor maxVisible) minP maxP k b
      hb hy (min cursor maxVisible) 0 (Nat.zero_le k) (by omega)

/-- Witness for C3: on a one-bar series at cursor 1, the pointer at the
center of the first candle's body resolves to bar 0. -/
theorem c3_hit_test_matches_render_witness :
    handleSimpleMouseMove [⟨("d"), 50, 60, 40, 55, 0, Signal.HOLD, 0⟩] 1 60 0 100
      (hitCandleStartX 0 + candleWidth / 2)
      ((hitPriceToY 0 100 50 + hitPriceToY 0 100 55) / 2) =
      some (startIndex 1 60 + 0) :=
  (c3_hit_test_matches_render [⟨("d"), 50, 60, 40, 55, 0, Signal.HOLD, 0⟩] 1 60
    0 100 0 ⟨("d"), 50, 60, 40, 55, 0, Signal.HOLD, 0⟩ (by decide) (by decide)
    (by rfl) (by decide) (by decide) (by decide) (by decide)).2.2

end TradingUI
